import Mathlib

/-!
Verification of the embedding-backed search engine of AFIDSI/community-search.

The repository's notebooks (src/notebooks/patch_db.ipynb) contain the ETL
glue: patching author JSON records with roster data, enriching articles with
citation counts, and loading records into a vector index.  The core library
(`embedding_search.vector_store`, `embedding_search.data_model`) is not part
of the source tree; where a claim depends on it, the corresponding definition
is modelled from the specification and marked as such in its doc comment.
Scalars are modelled as rationals: the specification's ranking and
aggregation contracts are about ordering and arithmetic structure, not about
floating-point rounding.
-/

/-- An embedding vector: an ordered sequence of numbers.  The store fixes a
dimension `D`; ingestion checks it, the arithmetic primitives are total. -/
abbrev Vec := List ℚ

/-- Modelled from the spec (§4.1): `dot(a, b)` computes the inner product of
two same-dimension vectors; the similarity metric used throughout. -/
def dot (a b : Vec) : ℚ := (List.zipWith (· * ·) a b).sum

/-- Modelled from the spec (§4.1): `add(v1, v2)` is the element-wise sum. -/
def vecAdd (a b : Vec) : Vec := List.zipWith (· + ·) a b

/-- Modelled from the spec (§4.1): `scale(v, w)` produces `w * v`
element-wise. -/
def vecScale (w : ℚ) (v : Vec) : Vec := v.map (w * ·)

/-- Error kinds of the store core (spec §7). -/
inductive StoreError where
  | DimensionMismatch (identity : String)
  | EmptyAuthor
deriving Repr, DecidableEq

/-- An Article entity record (spec §3): identity (a DOI), title, embedding
vector, mutable citation count, back-reference to the owning author. -/
structure Article where
  doi : String
  title : String
  embedding : Vec
  cited_by : Nat
  author_id : String
deriving Repr, DecidableEq

/-- An Author entity record (spec §3): identity (an ORCID), display name,
contact email, community label, and the owned articles (the notebooks store
the article list inline in each author's JSON file). -/
structure Author where
  orcid : String
  name : String
  email : String
  community_name : String
  articles : List Article
deriving Repr, DecidableEq

/-- An index entry (spec §3): entity identity, embedding vector, and a small
queryable payload (here the title). -/
structure Entry where
  identity : String
  embedding : Vec
  payload : String
deriving Repr, DecidableEq

/-- A search result (spec §4.2): (identity, score, payload). -/
structure SearchResult where
  identity : String
  score : ℚ
  payload : String
deriving Repr, DecidableEq

/-- The ranking order on scored, position-tagged items: higher score first,
and on equal scores the earlier insertion position first.  This is exactly
"descending score, ties broken by insertion order". -/
def RankLE {α : Type} (a b : (ℚ × ℕ) × α) : Prop :=
  b.1.1 < a.1.1 ∨ (a.1.1 = b.1.1 ∧ a.1.2 ≤ b.1.2)

instance {α : Type} : DecidableRel (@RankLE α) := fun a b =>
  inferInstanceAs (Decidable (b.1.1 < a.1.1 ∨ (a.1.1 = b.1.1 ∧ a.1.2 ≤ b.1.2)))

instance {α : Type} : IsTotal ((ℚ × ℕ) × α) RankLE where
  total a b := by
    rcases lt_trichotomy a.1.1 b.1.1 with h | h | h
    · exact Or.inr (Or.inl h)
    · rcases Nat.le_total a.1.2 b.1.2 with h2 | h2
      · exact Or.inl (Or.inr ⟨h, h2⟩)
      · exact Or.inr (Or.inr ⟨h.symm, h2⟩)
    · exact Or.inl (Or.inl h)

instance {α : Type} : IsTrans ((ℚ × ℕ) × α) RankLE where
  trans a b c hab hbc := by
    rcases hab with h1 | ⟨h1, h1p⟩ <;> rcases hbc with h2 | ⟨h2, h2p⟩
    · exact Or.inl (h2.trans h1)
    · exact Or.inl (h2 ▸ h1)
    · exact Or.inl (h1 ▸ h2)
    · exact Or.inr ⟨h1.trans h2, h1p.trans h2p⟩

/-- Modelled from the spec (§4.2): the generic ranking engine shared by
`Index.search` and the weighted author search.  Items are tagged with their
insertion position, scored by `key`, stably sorted by descending score with
ties broken by insertion order, and the first `topk` are kept. -/
def topKBy {α : Type} (key : α → ℚ) (topk : ℕ) (items : List α) :
    List ((ℚ × ℕ) × α) :=
  ((items.enum.map (fun p => ((key p.2, p.1), p.2))).insertionSort RankLE).take topk

namespace Index

/-- Modelled from the spec (§4.2): `Index.search(query_vector, top_k)` over
the brute-force exact index (a list of entries in insertion order): score
every entry by inner product with the query, rank descending with ties broken
by insertion order, return the first `top_k` as (identity, score, payload). -/
def search (entries : List Entry) (q : Vec) (topk : ℕ) : List SearchResult :=
  (topKBy (fun e => dot q e.embedding) topk entries).map
    (fun p => ⟨p.2.identity, p.1.1, p.2.payload⟩)

end Index

/-- Modelled from the spec (§4.3): `weight` defaults to 1 (equal weighting);
the aggregation below is parameterised over a pluggable weight function. -/
def defaultWeight (_ : Article) : ℚ := 1

/-- Modelled from the spec (§4.3): an author's weighted score is the sum over
that author's articles of `similarity(query, article.embedding) * weight`. -/
def authorScore (w : Article → ℚ) (q : Vec) (au : Author) : ℚ :=
  (au.articles.map (fun art => dot q art.embedding * w art)).sum

/-- Modelled from the spec (§4.3): `centroid(author)` is the unweighted mean
of the embedding vectors of all articles owned by the author; it fails with
`EmptyAuthor` when the author owns no articles (no zero-vector fallback). -/
def centroid (au : Author) : Except StoreError Vec :=
  match au.articles with
  | [] => .error .EmptyAuthor
  | a :: rest =>
    .ok (vecScale (1 / ((rest.length + 1 : ℕ) : ℚ))
      ((rest.map (·.embedding)).foldl vecAdd a.embedding))

/-- Modelled from the spec (§3, §4.4): the article entries derived from the
currently loaded author records, in record order. -/
def articleEntries (authors : List Author) : List Entry :=
  (authors.flatMap (·.articles)).map (fun a => ⟨a.doi, a.embedding, a.title⟩)

/-- Modelled from the spec (§4.3, §4.4): the derived author index entries,
one per author with a nonempty article set (authors with zero articles are
skipped, per the `EmptyAuthor` contract), carrying the centroid vector. -/
def authorEntries (authors : List Author) : List Entry :=
  authors.filterMap (fun au =>
    match centroid au with
    | .ok v => some ⟨au.orcid, v, au.name⟩
    | .error _ => none)

/-- Modelled from the spec (§4.4): the `MiniStore` orchestrator holds the
loaded entity records and the derived article and author indexes. -/
structure MiniStore where
  authors : List Author
  index : List Entry
  author_index : List Entry
deriving Repr, DecidableEq

namespace MiniStore

/-- Modelled from the spec (§4.4): `build()` performs a full rebuild of the
article index and the derived author index from the currently loaded entity
records. -/
def build (s : MiniStore) : MiniStore :=
  { s with index := articleEntries s.authors,
           author_index := authorEntries s.authors }

/-- Modelled from the spec (§4.4): `search(query, type="article", top_k)` is
a direct `Index.search` against the article index. -/
def search_articles (s : MiniStore) (q : Vec) (topk : ℕ) : List SearchResult :=
  Index.search s.index q topk

/-- Modelled from the spec (§4.4): `search(query, type="author", top_k)` is
an `Index.search` against the centroid-derived author index. -/
def search_authors (s : MiniStore) (q : Vec) (topk : ℕ) : List SearchResult :=
  Index.search s.author_index q topk

/-- Modelled from the spec (§4.3, §4.4): `weighted_search_author(query,
top_k)` aggregates directly over the live article records — not over any
prebuilt index — scoring each author by the weighted sum of its articles'
similarities, ranked under the same top-k/tie-break contract as
`Index.search`.  Returns (author identity, score) pairs. -/
def weighted_search_author (w : Article → ℚ) (s : MiniStore) (q : Vec)
    (topk : ℕ) : List (String × ℚ) :=
  (topKBy (authorScore w q) topk s.authors).map (fun p => (p.2.orcid, p.1.1))

end MiniStore

/-- Modelled from the spec (§7): batch ingestion of entries into an index of
dimension `D`.  Each record whose vector has dimension `D` is ingested
(appended); each malformed record is reported as a per-record
`DimensionMismatch` failure returned alongside the ingested set — one bad
record does not abort the batch. -/
def ingestStep (D : ℕ) (acc : List Entry × List StoreError) (e : Entry) :
    List Entry × List StoreError :=
  if e.embedding.length = D then (acc.1 ++ [e], acc.2)
  else (acc.1, acc.2 ++ [.DimensionMismatch e.identity])

/-- Modelled from the spec (§7): batch ingestion folds `ingestStep` over the
batch, starting from the current index and an empty failure list. -/
def insert_batch (D : ℕ) (idx : List Entry) (batch : List Entry) :
    List Entry × List StoreError :=
  batch.foldl (ingestStep D) (idx, [])

/-!
Code present in src/: the notebook cells of `src/notebooks/patch_db.ipynb`.
-/

/-- The loosely typed author JSON record as handled by the patch cell: the
fields `patch_author` reads and writes.  `email` and `community_name` are
optional in the on-disk record (the patch fills them in). -/
structure AuthorJson where
  orcid : String
  email : Option String
  community_name : Option String
deriving Repr, DecidableEq

/-- From src/notebooks/patch_db.ipynb, `patch_author`: load the author
record, set `author.email = id_to_email[author.orcid]` and
`author.community_name = id_to_community_name[author.orcid]`, save.  A
Python dict subscript raises `KeyError` when the key is absent; that is the
`.error` branch.  The rewritten record is returned in place of the file
write. -/
def patch_author (id_to_email : List (String × String))
    (id_to_community_name : List (String × String)) (author : AuthorJson) :
    Except String AuthorJson :=
  match id_to_email.lookup author.orcid with
  | none => .error "KeyError"
  | some email =>
    match id_to_community_name.lookup author.orcid with
    | none => .error "KeyError"
    | some cname => .ok { author with email := some email, community_name := some cname }

/-- From src/notebooks/patch_db.ipynb: the `for file in tqdm(authors_path):
patch_author(file)` loop.  An uncaught `KeyError` in `patch_author`
terminates the loop; modelled by `Except` propagation. -/
def patchLoop (id_to_email id_to_community_name : List (String × String)) :
    List AuthorJson → Except String (List AuthorJson)
  | [] => .ok []
  | a :: rest => do
    let a' ← patch_author id_to_email id_to_community_name a
    let rest' ← patchLoop id_to_email id_to_community_name rest
    return (a' :: rest')

/-- From src/notebooks/patch_db.ipynb, the cited-by patch body for one
article: `_, cited_by = query_crossref(article.doi); if cited_by:
article.cited_by = cited_by`.  The crossref result is `none` (empty) or a
count; Python truthiness makes both `None` and `0` skip the assignment. -/
def patchCitedBy (query_crossref : String → Option ℕ) (article : Article) :
    Article :=
  match query_crossref article.doi with
  | some cited_by => if cited_by ≠ 0 then { article with cited_by := cited_by } else article
  | none => article

/-- From src/notebooks/patch_db.ipynb: the per-author enrichment loop, which
patches every article of the author and saves the record. -/
def patchAuthorCitations (query_crossref : String → Option ℕ) (au : Author) :
    Author :=
  { au with articles := au.articles.map (patchCitedBy query_crossref) }

/-- From src/notebooks/patch_db.ipynb, the resume filter:
`start = False; for f in files: if f.stem == last_processed: start = True;
if start: append f`.  Files are modelled by their stems. -/
def slStep (last_processed : String) (acc : List String × Bool) (f : String) :
    List String × Bool :=
  let start := acc.2 || (f == last_processed)
  (if start then acc.1 ++ [f] else acc.1, start)

/-- From src/notebooks/patch_db.ipynb: the shortlist is the first component
of folding the loop body over the files, starting with an empty list and
`start = False`. -/
def short_listed_authors (last_processed : String) (files : List String) :
    List String :=
  (files.foldl (slStep last_processed) (([] : List String), false)).1

/-!
Helper lemmas about the ranking engine.
-/

/-- The strict ranking order: higher score first, equal scores resolved by
strictly earlier insertion position.  Distinct positions make this the
irreflexive version of `RankLE`. -/
def RankLT {α : Type} (a b : (ℚ × ℕ) × α) : Prop :=
  b.1.1 < a.1.1 ∨ (a.1.1 = b.1.1 ∧ a.1.2 < b.1.2)

theorem topKBy_length {α : Type} (key : α → ℚ) (k : ℕ) (items : List α) :
    (topKBy key k items).length = min k items.length := by
  unfold topKBy
  rw [List.length_take, List.length_insertionSort, List.length_map,
    List.enum_length]

theorem topKBy_sorted {α : Type} (key : α → ℚ) (k : ℕ) (items : List α) :
    (topKBy key k items).Pairwise RankLE := by
  unfold topKBy
  exact List.Pairwise.sublist (List.take_sublist _ _)
    (List.sorted_insertionSort RankLE _)

theorem mem_topKBy {α : Type} {key : α → ℚ} {k : ℕ} {items : List α}
    {p : (ℚ × ℕ) × α} (hp : p ∈ topKBy key k items) :
    p.2 ∈ items ∧ p.1.1 = key p.2 := by
  unfold topKBy at hp
  have h1 := List.mem_of_mem_take hp
  have h2 := (List.perm_insertionSort RankLE _).mem_iff.mp h1
  rcases List.mem_map.mp h2 with ⟨q, hq, rfl⟩
  exact ⟨List.getElem?_mem (List.mem_enum_iff_getElem?.mp hq), rfl⟩

theorem topKBy_pos_nodup {α : Type} (key : α → ℚ) (k : ℕ) (items : List α) :
    ((topKBy key k items).map (fun p => p.1.2)).Nodup := by
  unfold topKBy
  apply List.Nodup.sublist ((List.take_sublist k _).map _)
  apply ((List.perm_insertionSort RankLE _).map (fun p => p.1.2)).nodup_iff.mpr
  have : ((items.enum.map (fun p => ((key p.2, p.1), p.2))).map
      (fun p => p.1.2)) = items.enum.map Prod.fst := by
    rw [List.map_map]; rfl
  rw [this, List.enum_map_fst]
  exact List.nodup_range _

theorem topKBy_sorted_strict {α : Type} (key : α → ℚ) (k : ℕ)
    (items : List α) : (topKBy key k items).Pairwise RankLT := by
  have hs := topKBy_sorted key k items
  have hn := topKBy_pos_nodup key k items
  rw [List.Nodup, List.pairwise_map] at hn
  refine (hs.and hn).imp ?_
  rintro a b ⟨hle, hne⟩
  rcases hle with h | ⟨heq, hple⟩
  · exact Or.inl h
  · exact Or.inr ⟨heq, lt_of_le_of_ne hple hne⟩

/-- Concrete entries used to witness the C1 search contract. -/
def c1Entries : List Entry := [⟨"a", [1], "pa"⟩, ⟨"b", [2], "pb"⟩]

/-- C1: for every set of inserted (identity, vector, payload) entries and
every positive `top_k` less than or equal to the entry count,
`Index.search(query, top_k)` returns exactly `top_k` results, sorted by
non-increasing inner-product score — the underlying ranking being strictly
descending in the (score, insertion position) lexicographic order, which is
precisely "ties broken by insertion order" — and containing no identity that
is not in the inserted set. -/
theorem C1_index_search_contract (entries : List Entry) (q : Vec) (topk : ℕ)
    (_hpos : 0 < topk) (hle : topk ≤ entries.length) :
    (Index.search entries q topk).length = topk ∧
    (Index.search entries q topk).Pairwise (fun a b => b.score ≤ a.score) ∧
    (topKBy (fun e => dot q e.embedding) topk entries).Pairwise RankLT ∧
    ∀ r ∈ Index.search entries q topk,
      r.identity ∈ entries.map Entry.identity := by
  refine ⟨?_, ?_, topKBy_sorted_strict _ _ _, ?_⟩
  · unfold Index.search
    rw [List.length_map, topKBy_length, Nat.min_eq_left hle]
  · unfold Index.search
    refine List.Pairwise.map _ ?_ (topKBy_sorted _ _ _)
    rintro a b (h | ⟨h, _⟩)
    · exact le_of_lt h
    · exact le_of_eq h.symm
  · intro r hr
    unfold Index.search at hr
    rcases List.mem_map.mp hr with ⟨p, hp, rfl⟩
    exact List.mem_map.mpr ⟨p.2, (mem_topKBy hp).1, rfl⟩

/-- Witness for C1 at a concrete index and query. -/
theorem C1_index_search_contract_witness :
    (Index.search c1Entries [1] 1).length = 1 ∧
    (Index.search c1Entries [1] 1).Pairwise (fun a b => b.score ≤ a.score) ∧
    (topKBy (fun e => dot [1] e.embedding) 1 c1Entries).Pairwise RankLT ∧
    ∀ r ∈ Index.search c1Entries [1] 1,
      r.identity ∈ c1Entries.map Entry.identity :=
  C1_index_search_contract c1Entries [1] 1 (by decide) (by decide)

/-- Concrete entries used to witness C6 full coverage. -/
def c6Entries : List Entry := [⟨"x", [1], "px"⟩, ⟨"y", [3], "py"⟩, ⟨"z", [2], "pz"⟩]

/-- C6: for every set of inserted entries, `Index.search` with `top_k`
greater than or equal to the entry count returns every inserted entry exactly
once — the result is a permutation of the scored entries, hence full
coverage with no duplicates. -/
theorem C6_search_full_coverage (entries : List Entry) (q : Vec) (topk : ℕ)
    (h : entries.length ≤ topk) :
    (Index.search entries q topk).Perm
      (entries.map (fun e => ⟨e.identity, dot q e.embedding, e.payload⟩)) := by
  unfold Index.search topKBy
  have hlen : ((entries.enum.map
      (fun p => ((dot q p.2.embedding, p.1), p.2))).insertionSort
        RankLE).length ≤ topk := by
    rw [List.length_insertionSort, List.length_map, List.enum_length]
    exact h
  rw [List.take_of_length_le hlen]
  have hperm := (List.perm_insertionSort RankLE (entries.enum.map
      (fun p => ((dot q p.2.embedding, p.1), p.2)))).map
    (fun p => (⟨p.2.identity, p.1.1, p.2.payload⟩ : SearchResult))
  apply hperm.trans
  rw [List.map_map]
  have hrhs : entries.map
      (fun e => (⟨e.identity, dot q e.embedding, e.payload⟩ : SearchResult)) =
      entries.enum.map
        ((fun e => (⟨e.identity, dot q e.embedding, e.payload⟩ : SearchResult))
          ∘ Prod.snd) := by
    rw [← List.map_map, List.enum_map_snd]
  rw [hrhs]
  exact List.Perm.refl _

/-- Witness for C6 at a concrete index and query. -/
theorem C6_search_full_coverage_witness :
    (Index.search c6Entries [2] 5).Perm
      (c6Entries.map (fun e => ⟨e.identity, dot [2] e.embedding, e.payload⟩)) :=
  C6_search_full_coverage c6Entries [2] 5 (by decide)

/-- Demo records for the C2 sum-versus-average example: author A has one
article with similarity 9/10 to the query `[1]`, author B has two articles
with similarity 1/2 each. -/
def artA : Article := ⟨"dA", "tA", [9/10], 0, "A"⟩

def artB1 : Article := ⟨"dB1", "tB1", [1/2], 0, "B"⟩

def artB2 : Article := ⟨"dB2", "tB2", [1/2], 0, "B"⟩

def authorA : Author := ⟨"A", "Author A", "a@x", "comm", [artA]⟩

def authorB : Author := ⟨"B", "Author B", "b@x", "comm", [artB1, artB2]⟩

def demoStore : MiniStore := ⟨[authorA, authorB], [], []⟩

/-- C2: `weighted_search_author` assigns every returned author the score
`Σ over that author's articles of dot(query, embedding) * weight` (weight 1
by default), ranks under the same top-k/tie-break contract as `Index.search`
(strictly descending in the (score, insertion position) lexicographic
order), and on the concrete example with uniform weight 1, author B with two
articles of similarity 1/2 ranks above author A with one article of
similarity 9/10. -/
theorem C2_weighted_search_author_contract (s : MiniStore) (w : Article → ℚ)
    (q : Vec) (topk : ℕ) :
    (∀ r ∈ s.weighted_search_author w q topk,
      ∃ au ∈ s.authors, r = (au.orcid, authorScore w q au)) ∧
    (topKBy (authorScore w q) topk s.authors).Pairwise RankLT ∧
    MiniStore.weighted_search_author defaultWeight demoStore [1] 2 =
      [("B", 1), ("A", 9/10)] := by
  refine ⟨?_, topKBy_sorted_strict _ _ _, ?_⟩
  · intro r hr
    unfold MiniStore.weighted_search_author at hr
    rcases List.mem_map.mp hr with ⟨p, hp, rfl⟩
    obtain ⟨hmem, hscore⟩ := mem_topKBy hp
    exact ⟨p.2, hmem, by rw [hscore]⟩
  · norm_num [MiniStore.weighted_search_author, demoStore, topKBy,
      authorScore, defaultWeight, dot, authorA, authorB, artA, artB1, artB2,
      RankLE, List.insertionSort, List.orderedInsert]

/-- Witness for C2 at a concrete store, query and weight. -/
theorem C2_weighted_search_author_contract_witness :
    (∀ r ∈ demoStore.weighted_search_author defaultWeight [1] 2,
      ∃ au ∈ demoStore.authors,
        r = (au.orcid, authorScore defaultWeight [1] au)) ∧
    (topKBy (authorScore defaultWeight [1]) 2 demoStore.authors).Pairwise
      RankLT ∧
    MiniStore.weighted_search_author defaultWeight demoStore [1] 2 =
      [("B", 1), ("A", 9/10)] :=
  C2_weighted_search_author_contract demoStore defaultWeight [1] 2

/-- C5: calling `build()` twice in a row with no intervening record changes
is idempotent — the rebuilt store is identical, so every article search and
every author search returns identical results before and after the second
build. -/
theorem C5_build_idempotent (s : MiniStore) (q : Vec) (topk : ℕ) :
    s.build.build.search_articles q topk = s.build.search_articles q topk ∧
    s.build.build.search_authors q topk = s.build.search_authors q topk ∧
    s.build.build = s.build :=
  ⟨rfl, rfl, rfl⟩

/-- Concrete records used to witness C7. -/
def c7Records : List Author :=
  [⟨"A", "n", "e", "comm", [⟨"d1", "t1", [2], 0, "A"⟩]⟩]

/-- C7: `weighted_search_author` is computed directly over the live article
records and never consults the prebuilt indexes: two stores with the same
author records but arbitrarily different (e.g. stale, never built) indexes
give identical results, and the result always equals recomputing the
weighted aggregation over the current records with empty indexes. -/
theorem C7_weighted_search_live (s1 s2 : MiniStore) (w : Article → ℚ)
    (q : Vec) (topk : ℕ) (h : s1.authors = s2.authors) :
    s1.weighted_search_author w q topk =
      s2.weighted_search_author w q topk ∧
    s1.weighted_search_author w q topk =
      MiniStore.weighted_search_author w ⟨s1.authors, [], []⟩ q topk := by
  unfold MiniStore.weighted_search_author
  rw [h]
  exact ⟨rfl, rfl⟩

/-- Witness for C7: a never-built store and a store with stale indexes over
the same records answer identically. -/
theorem C7_weighted_search_live_witness :
    MiniStore.weighted_search_author defaultWeight ⟨c7Records, [], []⟩ [1] 1 =
      MiniStore.weighted_search_author defaultWeight
        ⟨c7Records, [⟨"stale", [5], "p"⟩], [⟨"sa", [6], "sp"⟩]⟩ [1] 1 :=
  (C7_weighted_search_live ⟨c7Records, [], []⟩
    ⟨c7Records, [⟨"stale", [5], "p"⟩], [⟨"sa", [6], "sp"⟩]⟩
    defaultWeight [1] 1 rfl).1

/-- Concrete author with two articles, used to witness C3. -/
def c3Author : Author :=
  ⟨"X", "n", "e", "comm", [⟨"d1", "t", [1, 3], 0, "X"⟩, ⟨"d2", "t", [3, 5], 0, "X"⟩]⟩

/-- Concrete author with zero articles, used to witness C3. -/
def c3Empty : Author := ⟨"Y", "n", "e", "comm", []⟩

/-- C3: for an author owning zero articles, `centroid` fails with
`EmptyAuthor` and never returns a default vector; for an author whose
articles carry embeddings `[v1, v2]`, `centroid` returns the element-wise
mean `(v1 + v2) / 2`. -/
theorem C3_centroid_contract (au : Author) (v1 v2 : Vec) :
    (au.articles = [] → centroid au = .error .EmptyAuthor) ∧
    (au.articles.map Article.embedding = [v1, v2] →
      centroid au = .ok (vecScale (1 / 2) (vecAdd v1 v2))) := by
  constructor
  · intro h
    simp [centroid, h]
  · intro h
    rcases hart : au.articles with _ | ⟨a1, _ | ⟨a2, _ | ⟨a3, t⟩⟩⟩ <;>
      rw [hart] at h <;> simp at h
    obtain ⟨h1, h2⟩ := h
    simp only [centroid, hart, List.map, List.length_cons, List.length_nil,
      List.foldl_cons, List.foldl_nil]
    rw [h1, h2]
    norm_num

/-- Witness for C3 at concrete authors. -/
theorem C3_centroid_contract_witness :
    centroid c3Author = .ok (vecScale (1 / 2) (vecAdd [1, 3] [3, 5])) ∧
    centroid c3Empty = .error .EmptyAuthor :=
  ⟨(C3_centroid_contract c3Author [1, 3] [3, 5]).2 rfl,
   (C3_centroid_contract c3Empty [] []).1 rfl⟩

/-- Concrete article used for the C4 counterexample and witness. -/
def c4Article : Article := ⟨"doi1", "t", [], 5, "au1"⟩

/-- C4 counterexample: the claim says the enrichment step sets the citation
count to exactly the returned value even when that value is zero; here the
lookup returns zero and the code keeps the previous count 5 — the guard
`if cited_by:` skips falsy results. -/
theorem C4_counterexample :
    (patchCitedBy (fun _ => some 0) c4Article).cited_by = 5 ∧
    ¬(patchCitedBy (fun _ => some 0) c4Article).cited_by = 0 := by
  constructor <;> simp [patchCitedBy, c4Article]

/-- C4 as amended: the enrichment step overwrites an article's citation
count with the returned value only when that value is truthy (non-empty and
non-zero); on an empty or zero result the previous count is retained; and
re-running the patch with the same lookup is idempotent (overwrite, not
increment). -/
theorem C4_patchCitedBy_overwrite (lookup : String → Option ℕ)
    (art : Article) :
    (∀ n, lookup art.doi = some n → n ≠ 0 →
      patchCitedBy lookup art = { art with cited_by := n }) ∧
    (lookup art.doi = none → patchCitedBy lookup art = art) ∧
    (lookup art.doi = some 0 → patchCitedBy lookup art = art) ∧
    patchCitedBy lookup (patchCitedBy lookup art) = patchCitedBy lookup art := by
  rcases hl : lookup art.doi with _ | n
  · refine ⟨?_, ?_, ?_, ?_⟩ <;> simp [patchCitedBy, hl]
  · by_cases hn : n = 0
    · subst hn
      refine ⟨?_, ?_, ?_, ?_⟩ <;> simp [patchCitedBy, hl]
    · refine ⟨?_, ?_, ?_, ?_⟩ <;> simp [patchCitedBy, hl, hn]

/-- Witness for the amended C4 at concrete lookups. -/
theorem C4_patchCitedBy_overwrite_witness :
    patchCitedBy (fun _ => some 7) c4Article =
      { c4Article with cited_by := 7 } ∧
    patchCitedBy (fun _ => none) c4Article = c4Article :=
  ⟨(C4_patchCitedBy_overwrite (fun _ => some 7) c4Article).1 7 rfl
      (by decide),
   (C4_patchCitedBy_overwrite (fun _ => none) c4Article).2.1 rfl⟩

theorem ingest_good (D : ℕ) (l : List Entry) (acc : List Entry × List StoreError)
    (h : ∀ e ∈ l, e.embedding.length = D) :
    l.foldl (ingestStep D) acc = (acc.1 ++ l, acc.2) := by
  induction l generalizing acc with
  | nil => simp
  | cons e t ih =>
    rw [List.foldl_cons]
    have he : e.embedding.length = D := h e (by simp)
    rw [show ingestStep D acc e = (acc.1 ++ [e], acc.2) by
      simp [ingestStep, he]]
    rw [ih _ (fun x hx => h x (by simp [hx]))]
    simp

/-- Concrete inputs used to witness C8. -/
def c8Good1 : Entry := ⟨"g1", [1], "p1"⟩

def c8Good2 : Entry := ⟨"g2", [2], "p2"⟩

def c8Bad : Entry := ⟨"bad", [1, 2], "pb"⟩

/-- C8: for a batch whose records all have dimension `D` except exactly one,
batch ingestion ingests every other record in order, reports the bad record
as a single `DimensionMismatch` failure returned alongside the ingested set,
leaves the index unaffected by the bad record, and does not abort the
batch. -/
theorem C8_insert_batch_one_bad (D : ℕ) (idx pre post : List Entry)
    (bad : Entry)
    (hpre : ∀ e ∈ pre, e.embedding.length = D)
    (hpost : ∀ e ∈ post, e.embedding.length = D)
    (hbad : bad.embedding.length ≠ D) :
    insert_batch D idx (pre ++ bad :: post) =
      (idx ++ (pre ++ post), [.DimensionMismatch bad.identity]) := by
  unfold insert_batch
  rw [List.foldl_append]
  rw [ingest_good D pre (idx, []) hpre]
  rw [List.foldl_cons]
  rw [show ingestStep D (idx ++ pre, []) bad =
      (idx ++ pre, [.DimensionMismatch bad.identity]) by
    simp [ingestStep, hbad]]
  rw [ingest_good D post _ hpost]
  simp

/-- Witness for C8: a three-record batch whose middle record has the wrong
dimension. -/
theorem C8_insert_batch_one_bad_witness :
    insert_batch 1 [] ([c8Good1] ++ c8Bad :: [c8Good2]) =
      ([] ++ ([c8Good1] ++ [c8Good2]),
        [.DimensionMismatch c8Bad.identity]) :=
  C8_insert_batch_one_bad 1 [] [c8Good1] [c8Good2] c8Bad
    (by intro e he; simp at he; subst he; rfl)
    (by intro e he; simp at he; subst he; rfl)
    (by decide)

theorem patch_author_fail {e c : List (String × String)} {a : AuthorJson}
    (h : (e.lookup a.orcid).isNone ∨ (c.lookup a.orcid).isNone) :
    patch_author e c a = .error "KeyError" := by
  unfold patch_author
  rcases he : e.lookup a.orcid with _ | email
  · rfl
  · rcases hc : c.lookup a.orcid with _ | cname
    · rfl
    · rw [he, hc] at h
      simp at h

theorem patchLoop_error {e c : List (String × String)} {a : AuthorJson}
    {l : List AuthorJson} (hmem : a ∈ l)
    (hfail : patch_author e c a = .error "KeyError") :
    ∃ msg, patchLoop e c l = .error msg := by
  induction l with
  | nil => simp at hmem
  | cons b t ih =>
    rcases List.mem_cons.mp hmem with rfl | hmem2
    · refine ⟨"KeyError", ?_⟩
      simp only [patchLoop, hfail]
      rfl
    · rcases hb : patch_author e c b with m | r
      · refine ⟨m, ?_⟩
        simp only [patchLoop, hb]
        rfl
      · obtain ⟨msg, hmsg⟩ := ih hmem2
        refine ⟨msg, ?_⟩
        simp only [patchLoop, hb, hmsg]
        rfl

/-- C9: `patch_author` succeeds exactly when the author's orcid is a key of
both roster mappings; for any author in the loop's worklist whose orcid is
absent from either roster, the lookup raises an unhandled `KeyError` and the
whole patch loop aborts with an error instead of skipping or defaulting. -/
theorem C9_patch_author_precondition (e c : List (String × String))
    (a : AuthorJson) (l : List AuthorJson) :
    ((∃ r, patch_author e c a = .ok r) ↔
      (e.lookup a.orcid).isSome ∧ (c.lookup a.orcid).isSome) ∧
    (a ∈ l → (e.lookup a.orcid).isNone ∨ (c.lookup a.orcid).isNone →
      ∃ msg, patchLoop e c l = .error msg) := by
  constructor
  · constructor
    · rintro ⟨r, hr⟩
      by_contra hcon
      rw [Decidable.not_and_iff_or_not, Option.not_isSome_iff_eq_none,
        Option.not_isSome_iff_eq_none] at hcon
      have : patch_author e c a = .error "KeyError" := by
        apply patch_author_fail
        rcases hcon with h | h
        · exact Or.inl (by simp [h])
        · exact Or.inr (by simp [h])
      rw [this] at hr
      exact Except.noConfusion hr
    · rintro ⟨h1, h2⟩
      rcases he : e.lookup a.orcid with _ | email
      · rw [he] at h1; simp at h1
      · rcases hc : c.lookup a.orcid with _ | cname
        · rw [hc] at h2; simp at h2
        · exact ⟨{ a with email := some email, community_name := some cname },
            by unfold patch_author; rw [he, hc]⟩
  · intro hmem h
    exact patchLoop_error hmem (patch_author_fail h)

/-- Concrete roster and author used to witness C9: the orcid "id2" is not in
the roster built from the datafile. -/
def c9Roster : List (String × String) := [("id1", "val1")]

def c9Missing : AuthorJson := ⟨"id2", none, none⟩

/-- Witness for C9: the loop over a single unknown author aborts. -/
theorem C9_patch_author_precondition_witness :
    ∃ msg, patchLoop c9Roster c9Roster [c9Missing] = .error msg :=
  (C9_patch_author_precondition c9Roster c9Roster c9Missing [c9Missing]).2
    (by simp) (by decide)

theorem foldl_slStep_true (last : String) (l : List String)
    (xs : List String) :
    l.foldl (slStep last) (xs, true) = (xs ++ l, true) := by
  induction l generalizing xs with
  | nil => simp
  | cons f t ih =>
    rw [List.foldl_cons]
    rw [show slStep last (xs, true) f = (xs ++ [f], true) by simp [slStep]]
    rw [ih]
    simp

theorem foldl_slStep_false (last : String) (l : List String)
    (xs : List String) :
    (l.foldl (slStep last) (xs, false)).1 =
      xs ++ l.dropWhile (fun f => f != last) := by
  induction l generalizing xs with
  | nil => simp
  | cons f t ih =>
    rw [List.foldl_cons]
    by_cases hf : f == last
    · have hcond : (f != last) = false := by simp [bne, hf]
      rw [show slStep last (xs, false) f = (xs ++ [f], true) by
        simp [slStep, hf]]
      rw [foldl_slStep_true]
      rw [show (f :: t).dropWhile (fun g => g != last) = f :: t by
        rw [List.dropWhile_cons, hcond]
        simp]
      simp
    · have hfeq : (f == last) = false := by simpa using hf
      have hcond : (f != last) = true := by simp [bne, hfeq]
      rw [show slStep last (xs, false) f = (xs, false) by
        simp [slStep, hfeq]]
      rw [ih]
      rw [show (f :: t).dropWhile (fun g => g != last) =
          t.dropWhile (fun g => g != last) by
        rw [List.dropWhile_cons, hcond]
        simp]

/-- C10: the resume filter selects exactly the suffix of directory iteration
order starting at the first file whose stem equals `last_processed`,
inclusive — so the checkpointed author is processed again — and when no
file's stem matches, the selected list is empty and no author is
enriched. -/
theorem C10_short_listed_authors_spec (last_processed : String)
    (files : List String) :
    short_listed_authors last_processed files =
      files.dropWhile (fun f => f != last_processed) ∧
    ((∀ f ∈ files, f ≠ last_processed) →
      short_listed_authors last_processed files = []) := by
  have hmain : short_listed_authors last_processed files =
      files.dropWhile (fun f => f != last_processed) := by
    unfold short_listed_authors
    rw [foldl_slStep_false]
    simp
  refine ⟨hmain, fun h => ?_⟩
  rw [hmain, List.dropWhile_eq_nil_iff]
  intro x hx
  simpa using h x hx

/-- Witness for C10: resuming at "b" keeps "b" itself and the rest; an
absent checkpoint selects nothing. -/
theorem C10_short_listed_authors_spec_witness :
    short_listed_authors "b" ["a", "b", "c"] =
      ["a", "b", "c"].dropWhile (fun f => f != "b") ∧
    short_listed_authors "b" ["a", "c"] = [] :=
  ⟨(C10_short_listed_authors_spec "b" ["a", "b", "c"]).1,
   (C10_short_listed_authors_spec "b" ["a", "c"]).2 (by decide)⟩
